import Mathlib

/-!
Shallow embedding of golinstor (linstor.go).

The repository is a client-side orchestration library around the external
command line tool of the LINSTOR control plane.  External effects (process
execution, sleeping, stat) are modelled as explicit parameters: the combined
output of a control-plane query is passed in as an already parsed JSON
syntax tree, the lstat check as a predicate on paths, and the outcome of a
mutating command as an optional error.  Machine integers are Nat / Int.
Fallible Go functions returning (T, error) become ExecResult / Except
values; Go runtime panics (out-of-range indexing) are an explicit
constructor, so every function here is total.  Error message strings are
close paraphrases of the Go format strings (quotes and apostrophes dropped);
no claim depends on their exact content.
-/

/-! ## Status validator (linstor.go lines 115-122) -/

-- const maskError = 0xC000000000000000 etc. inside linstorSuccess.
def maskError : Nat := 0xC000000000000000

def maskWarn : Nat := 0x8000000000000000

def maskInfo : Nat := 0x4000000000000000

-- func linstorSuccess(retcode uint64) bool
def linstorSuccess (retcode : Nat) : Bool :=
  (retcode &&& (maskError ||| maskWarn ||| maskInfo)) == 0

/-! ## Data model (linstor.go lines 33-100) -/

-- type Resource struct
structure Resource where
  Name : String
  NodeName : String
  Redundancy : String
  NodeList : List String
  ClientList : List String
  StoragePool : String
  SizeKiB : Nat
deriving DecidableEq

-- type volInfo struct
structure volInfo where
  HasDisk : Bool
  CheckMetaData : Bool
  HasMetaData : Bool
  IsPresent : Bool
  DiskFailed : Bool
  NetSize : Int
  VlmMinorNr : Int
  GrossSize : Int
  VlmNr : Int
deriving DecidableEq

-- the Go zero value of volInfo, i.e. what &volInfo{} denotes
def volInfo.zero : volInfo := ⟨false, false, false, false, false, 0, 0, 0, 0⟩

-- element type of resInfo.Vlms
structure vlmInfo where
  VlmNr : Int
  StorPoolName : String
  StorPoolUUID : String
  VlmMinorNr : Int
  VlmUUID : String
  VlmDfnUUID : String
deriving DecidableEq

def vlmInfo.zero : vlmInfo := ⟨0, "", "", 0, "", ""⟩

-- element type of resInfo.Props
structure propInfo where
  Value : String
  Key : String
deriving DecidableEq

-- type resInfo struct
structure resInfo where
  Vlms : List vlmInfo
  NodeUUID : String
  UUID : String
  NodeName : String
  Props : List propInfo
  RscDfnUUID : String
  Name : String
  RscFlags : List String
deriving DecidableEq

def resInfo.zero : resInfo := ⟨[], "", "", "", [], "", "", []⟩

-- element type of resList's ResourceStates
structure resStateInfo where
  RequiresAdjust : Bool
  RscName : String
  IsPrimary : Bool
  VlmStates : List volInfo
  IsPresent : Bool
  NodeName : String
deriving DecidableEq

def resStateInfo.zero : resStateInfo := ⟨false, "", false, [], false, ""⟩

-- element type of resList
structure resEntry where
  ResourceStates : List resStateInfo
  Resources : List resInfo
deriving DecidableEq

-- type resList []struct
abbrev resList : Type := List resEntry

/-! ## JSON values and the decode step

The input of json.Unmarshal is modelled as an already parsed JSON syntax
tree; a byte string that is not syntactically valid JSON has no Json
denotation, and structural mismatch with the target Go type is the decode
error modelled here.  Go semantics followed: a JSON null leaves the zero
value in place, a missing object key leaves the zero value, a repeated key
overwrites (last occurrence wins), an unknown key is ignored, and a value
of the wrong shape for a known field is a decode error. -/

inductive Json where
  | null
  | jbool (b : Bool)
  | jnum (n : Int)
  | jstr (s : String)
  | jarr (elems : List Json)
  | jobj (fields : List (String × Json))

-- last value bound to a key in a JSON object, Go map-overwrite semantics
def lastField (fields : List (String × Json)) (key : String) : Option Json :=
  fields.foldl (fun acc kv => if kv.fst == key then some kv.snd else acc) none

def decodeStr (v : Json) : Except String String :=
  match v with
  | .null => .ok ""
  | .jstr s => .ok s
  | _ => .error "cannot unmarshal value into Go string"

def decodeBool (v : Json) : Except String Bool :=
  match v with
  | .null => .ok false
  | .jbool b => .ok b
  | _ => .error "cannot unmarshal value into Go bool"

def decodeInt (v : Json) : Except String Int :=
  match v with
  | .null => .ok 0
  | .jnum n => .ok n
  | _ => .error "cannot unmarshal value into Go int"

def getStr (fields : List (String × Json)) (key : String) : Except String String :=
  match lastField fields key with
  | none => .ok ""
  | some v => decodeStr v

def getBool (fields : List (String × Json)) (key : String) : Except String Bool :=
  match lastField fields key with
  | none => .ok false
  | some v => decodeBool v

def getInt (fields : List (String × Json)) (key : String) : Except String Int :=
  match lastField fields key with
  | none => .ok 0
  | some v => decodeInt v

def getArr (fields : List (String × Json)) (key : String) : Except String (List Json) :=
  match lastField fields key with
  | none => .ok []
  | some .null => .ok []
  | some (.jarr l) => .ok l
  | some _ => .error "cannot unmarshal value into Go slice"

def decodeStrList (l : List Json) : Except String (List String) :=
  match l with
  | [] => .ok []
  | j :: rest => do
    let s ← decodeStr j
    let ss ← decodeStrList rest
    .ok (s :: ss)

def decodeVolInfo (j : Json) : Except String volInfo :=
  match j with
  | .null => .ok volInfo.zero
  | .jobj fields => do
    let hasDisk ← getBool fields "has_disk"
    let checkMetaData ← getBool fields "check_meta_data"
    let hasMetaData ← getBool fields "has_meta_data"
    let isPresent ← getBool fields "is_present"
    let diskFailed ← getBool fields "disk_failed"
    let netSize ← getInt fields "net_size"
    let vlmMinorNr ← getInt fields "vlm_minor_nr"
    let grossSize ← getInt fields "gross_size"
    let vlmNr ← getInt fields "vlm_nr"
    .ok ⟨hasDisk, checkMetaData, hasMetaData, isPresent, diskFailed,
         netSize, vlmMinorNr, grossSize, vlmNr⟩
  | _ => .error "cannot unmarshal value into Go struct volInfo"

def decodeVolInfoList (l : List Json) : Except String (List volInfo) :=
  match l with
  | [] => .ok []
  | j :: rest => do
    let v ← decodeVolInfo j
    let vs ← decodeVolInfoList rest
    .ok (v :: vs)

def decodeVlmInfo (j : Json) : Except String vlmInfo :=
  match j with
  | .null => .ok vlmInfo.zero
  | .jobj fields => do
    let vlmNr ← getInt fields "vlm_nr"
    let storPoolName ← getStr fields "stor_pool_name"
    let storPoolUUID ← getStr fields "stor_pool_uuid"
    let vlmMinorNr ← getInt fields "vlm_minor_nr"
    let vlmUUID ← getStr fields "vlm_uuid"
    let vlmDfnUUID ← getStr fields "vlm_dfn_uuid"
    .ok ⟨vlmNr, storPoolName, storPoolUUID, vlmMinorNr, vlmUUID, vlmDfnUUID⟩
  | _ => .error "cannot unmarshal value into Go struct of resInfo Vlms"

def decodeVlmInfoList (l : List Json) : Except String (List vlmInfo) :=
  match l with
  | [] => .ok []
  | j :: rest => do
    let v ← decodeVlmInfo j
    let vs ← decodeVlmInfoList rest
    .ok (v :: vs)

def decodePropInfo (j : Json) : Except String propInfo :=
  match j with
  | .null => .ok ⟨"", ""⟩
  | .jobj fields => do
    let value ← getStr fields "value"
    let key ← getStr fields "key"
    .ok ⟨value, key⟩
  | _ => .error "cannot unmarshal value into Go struct of resInfo Props"

def decodePropInfoList (l : List Json) : Except String (List propInfo) :=
  match l with
  | [] => .ok []
  | j :: rest => do
    let v ← decodePropInfo j
    let vs ← decodePropInfoList rest
    .ok (v :: vs)

def decodeResInfo (j : Json) : Except String resInfo :=
  match j with
  | .null => .ok resInfo.zero
  | .jobj fields => do
    let vlmsRaw ← getArr fields "vlms"
    let vlms ← decodeVlmInfoList vlmsRaw
    let nodeUUID ← getStr fields "node_uuid"
    let uuid ← getStr fields "uuid"
    let nodeName ← getStr fields "node_name"
    let propsRaw ← getArr fields "props"
    let props ← decodePropInfoList propsRaw
    let rscDfnUUID ← getStr fields "rsc_dfn_uuid"
    let name ← getStr fields "name"
    let rscFlagsRaw ← getArr fields "rsc_flags"
    let rscFlags ← decodeStrList rscFlagsRaw
    .ok ⟨vlms, nodeUUID, uuid, nodeName, props, rscDfnUUID, name, rscFlags⟩
  | _ => .error "cannot unmarshal value into Go struct resInfo"

def decodeResInfoList (l : List Json) : Except String (List resInfo) :=
  match l with
  | [] => .ok []
  | j :: rest => do
    let v ← decodeResInfo j
    let vs ← decodeResInfoList rest
    .ok (v :: vs)

def decodeResStateInfo (j : Json) : Except String resStateInfo :=
  match j with
  | .null => .ok resStateInfo.zero
  | .jobj fields => do
    let requiresAdjust ← getBool fields "requires_adjust"
    let rscName ← getStr fields "rsc_name"
    let isPrimary ← getBool fields "is_primary"
    let vlmStatesRaw ← getArr fields "vlm_states"
    let vlmStates ← decodeVolInfoList vlmStatesRaw
    let isPresent ← getBool fields "is_present"
    let nodeName ← getStr fields "node_name"
    .ok ⟨requiresAdjust, rscName, isPrimary, vlmStates, isPresent, nodeName⟩
  | _ => .error "cannot unmarshal value into Go struct of resource states"

def decodeResStateInfoList (l : List Json) : Except String (List resStateInfo) :=
  match l with
  | [] => .ok []
  | j :: rest => do
    let v ← decodeResStateInfo j
    let vs ← decodeResStateInfoList rest
    .ok (v :: vs)

def decodeResEntry (j : Json) : Except String resEntry :=
  match j with
  | .null => .ok ⟨[], []⟩
  | .jobj fields => do
    let statesRaw ← getArr fields "resource_states"
    let states ← decodeResStateInfoList statesRaw
    let resourcesRaw ← getArr fields "resources"
    let resources ← decodeResInfoList resourcesRaw
    .ok ⟨states, resources⟩
  | _ => .error "cannot unmarshal value into Go struct of resList"

def decodeResEntryList (l : List Json) : Except String (List resEntry) :=
  match l with
  | [] => .ok []
  | j :: rest => do
    let v ← decodeResEntry j
    let vs ← decodeResEntryList rest
    .ok (v :: vs)

-- json.Unmarshal(out, &resList{})
def unmarshalResList (j : Json) : Except String resList :=
  match j with
  | .null => .ok []
  | .jarr l => decodeResEntryList l
  | _ => .error "cannot unmarshal value into Go slice resList"

/-! ## Outcomes of Go calls

ExecResult combines the Go (value, error) return pair with an explicit
constructor for a runtime panic, so that unguarded slice indexing is
modelled totally. -/

inductive ExecResult (α : Type) where
  | ok (a : α)
  | err (e : String)
  | panicked (msg : String)
deriving DecidableEq

-- the message of Go's out-of-range panic on resources[0] of an empty slice
def oobMsg : String := "runtime error: index out of range [0] with length 0"

/-! ## Resource state reader (linstor.go lines 227-304) -/

-- func doResExists(resourceName string, resInfo []byte) (bool, error)
-- The Go loop over resources[0].Resources returns (true, nil) on the first
-- name match and (false, nil) after the loop; indexing an empty decoded
-- slice panics.
def doResExists (resourceName : String) (resInfoBytes : Json) : ExecResult Bool :=
  match unmarshalResList resInfoBytes with
  | .error e => .err ("could not Unmarshal :" ++ e)
  | .ok [] => .panicked oobMsg
  | .ok (first :: _) => .ok (first.Resources.any (fun r => r.Name == resourceName))

-- func (r Resource) Exists() (bool, error); the command output is a parameter
def Resource.Exists (r : Resource) (out : Json) : ExecResult Bool :=
  doResExists r.Name out

-- func doResOnNode(list resList, resName, nodeName string) bool;
-- none models the panic of list[0] on an empty list
def doResOnNode (list : resList) (resName nodeName : String) : Option Bool :=
  match list with
  | [] => none
  | first :: _ =>
    some (first.Resources.any (fun res => res.Name == resName && res.NodeName == nodeName))

-- func (r Resource) OnNode(nodeName string) (bool, error)
def Resource.OnNode (r : Resource) (out : Json) (nodeName : String) : ExecResult Bool :=
  match unmarshalResList out with
  | .error e => .err ("could not Unmarshal :" ++ e)
  | .ok l =>
    match doResOnNode l r.Name nodeName with
    | none => .panicked oobMsg
    | some b => .ok b

-- first volume state with VlmNr == 0, as found by the inner loop of doIsClient
def vol0 (vlms : List volInfo) : Option volInfo :=
  vlms.find? (fun v => v.VlmNr == 0)

-- the loop body of doIsClient: the first record matching (name, node) that
-- carries a volume 0 decides the answer; records without volume 0 are
-- passed over; no record decides it means false
def isClientScan (rscName nodeName : String) : List resStateInfo → Bool
  | [] => false
  | res :: rest =>
    if rscName == res.RscName && nodeName == res.NodeName then
      match vol0 res.VlmStates with
      | some v => !v.HasDisk
      | none => isClientScan rscName nodeName rest
    else isClientScan rscName nodeName rest

-- func (r Resource) doIsClient(list resList, nodeName string) bool
def Resource.doIsClient (r : Resource) (list : resList) (nodeName : String) : Option Bool :=
  match list with
  | [] => none
  | first :: _ => some (isClientScan r.Name nodeName first.ResourceStates)

/-! ## Device path resolver (linstor.go lines 440-475) -/

-- the inner loop of getDevPath over res.VlmStates: every entry with
-- VlmNr == 0 overwrites vol, so the last one wins
def scanVlms (vol : volInfo) : List volInfo → volInfo
  | [] => vol
  | v :: rest => scanVlms (if v.VlmNr == 0 then v else vol) rest

-- the outer loop of getDevPath over list[0].ResourceStates
def scanVolFrom (rscName : String) (vol : volInfo) : List resStateInfo → volInfo
  | [] => vol
  | res :: rest =>
    scanVolFrom rscName
      (if rscName == res.RscName then scanVlms vol res.VlmStates else vol) rest

-- vol := &volInfo{}; the double loop of getDevPath starting from the zero value
def scanVol (rscName : String) (states : List resStateInfo) : volInfo :=
  scanVolFrom rscName volInfo.zero states

-- func doGetDevPath(vol volInfo) string
def doGetDevPath (vol : volInfo) : String :=
  "/dev/drbd" ++ toString vol.VlmMinorNr

-- func getDevPath(r Resource) (string, error); the ls-rsc output and the
-- os.Lstat check are parameters
def getDevPath (r : Resource) (out : Json) (lstatOK : String → Bool) : ExecResult String :=
  match unmarshalResList out with
  | .error e => .err e
  | .ok [] => .panicked oobMsg
  | .ok (first :: _) =>
    let vol := scanVol r.Name first.ResourceStates
    let devicePath := doGetDevPath vol
    if lstatOK devicePath then .ok devicePath
    else .err ("Could not stat " ++ devicePath)

/-! ## Resource lifecycle: Assign (linstor.go lines 173-208) -/

-- the create-resource command issued for one node: with a storage pool for
-- the disk-backed list, with the diskless flag for the client list
def createResourceArgs (r : Resource) (diskless : Bool) (node : String) : List String :=
  if diskless then ["create-resource", r.Name, node, "--diskless"]
  else ["create-resource", r.Name, node, "-s", r.StoragePool]

-- one of the two per-node loops of Assign; exec gives the outcome of each
-- issued linstor command (none = success); the second component collects
-- the create-resource commands actually issued, in order
def assignNodes (r : Resource) (out : Json) (exec : List String → Option String)
    (diskless : Bool) : List String → ExecResult Unit × List (List String)
  | [] => (.ok (), [])
  | node :: rest =>
    match r.OnNode out node with
    | .err e =>
      (.err ("unable to assign resource " ++ r.Name ++
             " failed to check if it was already present on node " ++ node ++ ": " ++ e), [])
    | .panicked m => (.panicked m, [])
    | .ok present =>
      if present then assignNodes r out exec diskless rest
      else
        let cmd := createResourceArgs r diskless node
        match exec cmd with
        | some e => (.err e, [cmd])
        | none =>
          let next := assignNodes r out exec diskless rest
          (next.fst, cmd :: next.snd)

-- func (r Resource) Assign() error; out is the (unchanged) ls-rsc output
-- consulted by Exists and by every OnNode check, exec the outcome of each
-- mutating linstor command; the issued create-resource commands are returned
def Resource.Assign (r : Resource) (out : Json) (exec : List String → Option String) :
    ExecResult Unit × List (List String) :=
  match r.Exists out with
  | .err e =>
    (.err ("Unable to determine if resource " ++ r.Name ++ " is defined " ++ e), [])
  | .panicked m => (.panicked m, [])
  | .ok false => (.err ("No resource definition for resource " ++ r.Name), [])
  | .ok true =>
    let phase1 := assignNodes r out exec false r.NodeList
    match phase1.fst with
    | .ok _ =>
      let phase2 := assignNodes r out exec true r.ClientList
      (phase2.fst, phase1.snd ++ phase2.snd)
    | other => (other, phase1.snd)

/-! ## Filesystem probe parsing (linstor.go lines 400-423) -/

-- unicode.IsSpace restricted to the ASCII whitespace that blkid emits
def goIsSpace (c : Char) : Bool :=
  c == ' ' || c == '\t' || c == '\n' || c == '\r'

-- strings.Fields: split around runs of whitespace
def fieldsAux : List Char → List Char → List String
  | [], [] => []
  | [], cur => [String.mk cur.reverse]
  | c :: rest, cur =>
    if goIsSpace c then
      match cur with
      | [] => fieldsAux rest []
      | _ => String.mk cur.reverse :: fieldsAux rest []
    else fieldsAux rest (c :: cur)

def goFields (s : String) : List String := fieldsAux s.data []

-- strings.Split(pair, "="): always returns at least one part
def splitEqAux : List Char → List Char → List String
  | [], cur => [String.mk cur.reverse]
  | c :: rest, cur =>
    if c == '=' then String.mk cur.reverse :: splitEqAux rest []
    else splitEqAux rest (c :: cur)

def goSplitEq (s : String) : List String := splitEqAux s.data []

-- the map-building loop of doCheckFSType: p := strings.Split(pair, "=");
-- fewer than two parts is a parse error, else blockAttrs[p[0]] = p[1]
def parseBlockAttrs (s : String) : List String → Except String (List (String × String))
  | [] => .ok []
  | pair :: rest =>
    match goSplitEq pair with
    | p0 :: p1 :: _ =>
      (parseBlockAttrs s rest).map (fun attrs => (p0, p1) :: attrs)
    | _ => .error ("could not parse filesystem data from " ++ s)

-- Go map lookup over the insertion-ordered pairs: the last binding wins
def mapLookup (attrs : List (String × String)) (key : String) : Option String :=
  attrs.foldl (fun acc kv => if kv.fst == key then some kv.snd else acc) none

-- func doCheckFSType(s string) (string, error)
def doCheckFSType (s : String) : Except String String :=
  let f := goFields s
  if f.isEmpty then .ok ""
  else
    match parseBlockAttrs s f with
    | .error e => .error e
    | .ok blockAttrs =>
      match mapLookup blockAttrs "ID_FS_TYPE" with
      | some fs => .ok fs
      | none => .error ("could not find ID_FS_TYPE in " ++ s)

/-! ## Safe formatting (linstor.go lines 364-385) -/

-- type FSUtil struct; the embedded *Resource is not consulted by safeFormat
structure FSUtil where
  res : Resource
  FSType : String

-- the outcome of safeFormat: the returned error, if any, and the mkfs
-- command issued, if any
structure safeFormatResult where
  err : Option String
  mkfsCmd : Option (List String)
deriving DecidableEq

-- func (f FSUtil) safeFormat(path string) error; blkidOut is the combined
-- output of blkid -o udev (checkFSType feeds it to doCheckFSType), mkfsErr
-- the outcome of the mkfs command when it is run
def FSUtil.safeFormat (f : FSUtil) (path : String) (blkidOut : String)
    (mkfsErr : Option String) : safeFormatResult :=
  match doCheckFSType blkidOut with
  | .error e => ⟨some ("unable to format filesystem for " ++ path ++ ": " ++ e), none⟩
  | .ok deviceFS =>
    if deviceFS == f.FSType then ⟨none, none⟩
    else if deviceFS != "" && deviceFS != f.FSType then
      ⟨some ("device " ++ path ++ " already formatted with " ++ deviceFS ++
             " filesystem, refusing to overwrite with " ++ f.FSType ++ " filesystem"),
       none⟩
    else
      match mkfsErr with
      | some e =>
        ⟨some ("could not create " ++ f.FSType ++ " filesystem " ++ e),
         some ["mkfs", "-t", f.FSType, path]⟩
      | none => ⟨none, some ["mkfs", "-t", f.FSType, path]⟩

/-! ## Decidability of decode results -/

instance {ε α : Type} [DecidableEq ε] [DecidableEq α] : DecidableEq (Except ε α)
  | .ok a, .ok b =>
    if h : a = b then .isTrue (by rw [h]) else .isFalse (fun hc => h (Except.ok.inj hc))
  | .error e, .error f =>
    if h : e = f then .isTrue (by rw [h]) else .isFalse (fun hc => h (Except.error.inj hc))
  | .ok _, .error _ => .isFalse (fun hc => Except.noConfusion hc)
  | .error _, .ok _ => .isFalse (fun hc => Except.noConfusion hc)

/-! ## Statements of the specification, in its own words

These two definitions are not translations of the source; they spell out
what the specification says the device-path scan computes, so that the scan
of getDevPath can be compared against them. -/

-- the FIRST resource-state record whose name matches, and volume 0 of it,
-- as the device-path claim words the scan
def specFirstMatchVol0 (rscName : String) (states : List resStateInfo) : Option volInfo :=
  (states.find? (fun res => rscName == res.RscName)).bind (fun res => vol0 res.VlmStates)

-- what the code actually keeps: the LAST entry with volume number 0 among
-- all records whose name matches, later records overriding earlier ones
def lastMatchVol0 (rscName : String) (states : List resStateInfo) : Option volInfo :=
  ((states.filter (fun res => rscName == res.RscName)).flatMap
    (fun res => res.VlmStates.filter (fun v => v.VlmNr == 0))).getLast?

-- the key of a KEY=VALUE probe token, i.e. p[0] of strings.Split(pair, "=")
def tokenKey (pair : String) : String := (goSplitEq pair).headD ""

-- the value of a KEY=VALUE probe token, i.e. p[1]
def tokenVal (pair : String) : String := (goSplitEq pair).getD 1 ""

/-! ## Concrete inputs used by witnesses and counterexamples -/

def volWithMinor (m : Int) : volInfo := ⟨false, false, false, false, false, 0, m, 0, 0⟩

def volWithDisk : volInfo := ⟨true, false, false, false, false, 0, 0, 0, 0⟩

def r0 : Resource := ⟨"r0", "", "", [], [], "", 0⟩

def jsonVol (minor : Int) : Json :=
  .jobj [("vlm_nr", .jnum 0), ("vlm_minor_nr", .jnum minor)]

def jsonState (name node : String) (vols : List Json) : Json :=
  .jobj [("rsc_name", .jstr name), ("node_name", .jstr node), ("vlm_states", .jarr vols)]

def jsonRes (name node : String) : Json :=
  .jobj [("name", .jstr name), ("node_name", .jstr node)]

def jsonSnapshot (states resources : List Json) : Json :=
  .jarr [.jobj [("resource_states", .jarr states), ("resources", .jarr resources)]]

-- a snapshot whose resource-definition list holds r0 on nodeA only
def jC3 : Json := jsonSnapshot [] [jsonRes "r0" "nodeA"]

-- a snapshot with TWO resource-state records for r0, on different nodes,
-- with different volume-0 minor numbers
def jC4 : Json :=
  jsonSnapshot [jsonState "r0" "alpha" [jsonVol 7], jsonState "r0" "beta" [jsonVol 9]] []

def statesC4 : List resStateInfo :=
  [⟨false, "r0", false, [volWithMinor 7], false, "alpha"⟩,
   ⟨false, "r0", false, [volWithMinor 9], false, "beta"⟩]

-- the resource r0 assigned disk-backed to n1 and disklessly to n2
def rC6 : Resource := ⟨"r0", "", "", ["n1"], ["n2"], "pool0", 0⟩

-- a snapshot in which r0 is already present on both n1 and n2
def jC6 : Json := jsonSnapshot [] [jsonRes "r0" "n1", jsonRes "r0" "n2"]

-- a snapshot whose only resource-state record belongs to a different resource
def jC7 : Json := jsonSnapshot [jsonState "other" "n1" [jsonVol 4]] []

-- decoded snapshots for the client/diskless determination
def entryC9client : resEntry := ⟨[⟨false, "r0", false, [volInfo.zero], false, "n1"⟩], []⟩

def entryC9disk : resEntry := ⟨[⟨false, "r0", false, [volWithDisk], false, "n1"⟩], []⟩

def entryC9miss : resEntry := ⟨[⟨false, "r0", false, [volWithDisk], false, "n2"⟩], []⟩

-- a decoded snapshot whose only definition record is r0 on n1
def entryC10 : resEntry := ⟨[], [⟨[], "", "", "n1", [], "", "r0", []⟩]⟩

/-! ## Helper lemmas -/

theorem getLastD_cons {α : Type} (rest : List α) (x vol : α) :
    ((x :: rest).getLast?).getD vol = (rest.getLast?).getD x := by
  induction rest generalizing x vol with
  | nil => rfl
  | cons y rest ih =>
    rw [List.getLast?_cons_cons, ih y vol, ih y x]

theorem getLastD_append {α : Type} (A B : List α) (vol : α) :
    ((A ++ B).getLast?).getD vol = (B.getLast?).getD ((A.getLast?).getD vol) := by
  induction A generalizing vol with
  | nil => rfl
  | cons x A ih =>
    rw [List.cons_append, getLastD_cons (A ++ B) x vol, ih x, getLastD_cons A x vol]

theorem scanVlms_eq (vlms : List volInfo) (vol : volInfo) :
    scanVlms vol vlms = ((vlms.filter (fun v => v.VlmNr == 0)).getLast?).getD vol := by
  induction vlms generalizing vol with
  | nil => rfl
  | cons v rest ih =>
    rw [scanVlms, List.filter_cons]
    by_cases h : (v.VlmNr == 0) = true
    · rw [if_pos h, if_pos h, ih v, getLastD_cons]
    · rw [if_neg h, if_neg h, ih vol]

theorem scanVolFrom_eq (states : List resStateInfo) (name : String) (vol : volInfo) :
    scanVolFrom name vol states =
      (((states.filter (fun res => name == res.RscName)).flatMap
        (fun res => res.VlmStates.filter (fun v => v.VlmNr == 0))).getLast?).getD vol := by
  induction states generalizing vol with
  | nil => rfl
  | cons res rest ih =>
    rw [scanVolFrom, List.filter_cons]
    by_cases h : (name == res.RscName) = true
    · rw [if_pos h, if_pos h, ih, List.flatMap_cons, getLastD_append, scanVlms_eq]
    · rw [if_neg h, if_neg h, ih]

theorem assignNodes_allPresent (r : Resource) (out : Json) (exec : List String → Option String)
    (diskless : Bool) (nodes : List String)
    (h : ∀ node ∈ nodes, r.OnNode out node = .ok true) :
    assignNodes r out exec diskless nodes = (.ok (), []) := by
  induction nodes with
  | nil => rfl
  | cons node rest ih =>
    have h1 : r.OnNode out node = .ok true := h node (by simp)
    rw [assignNodes, h1]
    exact ih (fun n hn => h n (by simp [hn]))

theorem isClientScan_of_found (name node : String) (pre : List resStateInfo)
    (res : resStateInfo) (post : List resStateInfo) (v : volInfo)
    (hpre : ∀ q ∈ pre, (name = q.RscName ∧ node = q.NodeName) → vol0 q.VlmStates = none)
    (h1 : name = res.RscName) (h2 : node = res.NodeName)
    (hv : vol0 res.VlmStates = some v) :
    isClientScan name node (pre ++ res :: post) = !v.HasDisk := by
  induction pre with
  | nil =>
    have hb : (name == res.RscName && node == res.NodeName) = true := by
      simp [h1, h2]
    rw [List.nil_append, isClientScan, if_pos hb, hv]
  | cons q pre ih =>
    have ih2 := ih (fun p hp hm => hpre p (by simp [hp]) hm)
    rw [List.cons_append, isClientScan]
    by_cases hq : (name == q.RscName && node == q.NodeName) = true
    · have hm : name = q.RscName ∧ node = q.NodeName := by
        simpa using hq
      rw [if_pos hq, hpre q (by simp) hm]
      exact ih2
    · rw [if_neg hq]
      exact ih2

theorem isClientScan_of_none (name node : String) (states : List resStateInfo)
    (h : ∀ q ∈ states, (name = q.RscName ∧ node = q.NodeName) → vol0 q.VlmStates = none) :
    isClientScan name node states = false := by
  induction states with
  | nil => rfl
  | cons q rest ih =>
    have ih2 := ih (fun p hp hm => h p (by simp [hp]) hm)
    rw [isClientScan]
    by_cases hq : (name == q.RscName && node == q.NodeName) = true
    · have hm : name = q.RscName ∧ node = q.NodeName := by
        simpa using hq
      rw [if_pos hq, h q (by simp) hm]
      exact ih2
    · rw [if_neg hq]
      exact ih2

theorem lookupFoldAcc_none (key : String) (attrs : List (String × String)) :
    ∀ acc : Option String, (∀ kv ∈ attrs, kv.fst ≠ key) →
      attrs.foldl (fun acc kv => if kv.fst == key then some kv.snd else acc) acc = acc := by
  induction attrs with
  | nil => intro acc _; rfl
  | cons kv rest ih =>
    intro acc h
    have hb : (kv.fst == key) = false := by
      simpa using h kv (by simp)
    rw [List.foldl_cons, if_neg (by simp [hb])]
    exact ih acc (fun p hp => h p (by simp [hp]))

theorem lookupFoldAcc_const (key v : String) (attrs : List (String × String)) :
    ∀ acc : Option String, (∃ kv ∈ attrs, kv.fst = key) →
      (∀ kv ∈ attrs, kv.fst = key → kv.snd = v) →
      attrs.foldl (fun acc kv => if kv.fst == key then some kv.snd else acc) acc = some v := by
  induction attrs with
  | nil => intro acc hex _; simp at hex
  | cons kv rest ih =>
    intro acc hex hall
    rw [List.foldl_cons]
    by_cases hrest : ∃ p ∈ rest, p.fst = key
    · exact ih _ hrest (fun p hp hk => hall p (by simp [hp]) hk)
    · have hk : kv.fst = key := by
        rcases hex with ⟨p, hp, hpk⟩
        rcases List.mem_cons.mp hp with h | h
        · rw [h] at hpk; exact hpk
        · exact absurd ⟨p, h, hpk⟩ hrest
      have hv : kv.snd = v := hall kv (by simp) hk
      rw [if_pos (by simp [hk]), hv]
      exact lookupFoldAcc_none key rest (some v)
        (fun p hp => fun hc => hrest ⟨p, hp, hc⟩)

theorem parseBlockAttrs_ok (s : String) (l : List String)
    (h : ∀ pair ∈ l, 2 ≤ (goSplitEq pair).length) :
    parseBlockAttrs s l = .ok (l.map (fun pair => (tokenKey pair, tokenVal pair))) := by
  induction l with
  | nil => rfl
  | cons pair rest ih =>
    have hlen := h pair (by simp)
    rw [parseBlockAttrs]
    cases e : goSplitEq pair with
    | nil => rw [e] at hlen; simp at hlen
    | cons p0 tail =>
      cases tail with
      | nil => rw [e] at hlen; simp at hlen
      | cons p1 t =>
        rw [ih (fun p hp => h p (by simp [hp]))]
        simp [tokenKey, tokenVal, e, Except.map]

theorem parseBlockAttrs_err (s : String) (l : List String) (pair : String)
    (hmem : pair ∈ l) (hlen : (goSplitEq pair).length < 2) :
    ∃ m, parseBlockAttrs s l = .error m := by
  induction l with
  | nil => simp at hmem
  | cons q rest ih =>
    rcases List.mem_cons.mp hmem with h | h
    · subst h
      rw [parseBlockAttrs]
      cases e : goSplitEq pair with
      | nil => exact ⟨_, rfl⟩
      | cons p0 tail =>
        cases tail with
        | nil => exact ⟨_, rfl⟩
        | cons p1 t => rw [e] at hlen; simp at hlen; omega
    · rcases ih h with ⟨m, hm⟩
      rw [parseBlockAttrs]
      cases e : goSplitEq q with
      | nil => exact ⟨_, rfl⟩
      | cons p0 tail =>
        cases tail with
        | nil => exact ⟨_, rfl⟩
        | cons p1 t => rw [hm]; exact ⟨m, rfl⟩

/-! ## Claim theorems -/

/-- Claim C1, as stated, is false on the code at the return code with only
bit 61 set: the claim predicts failure, since that code ANDed with the union
of bits 63, 62 and 61 is nonzero, but linstorSuccess accepts it — the three
Go mask constants overlap and their union covers only bits 63 and 62. -/
theorem claim_C1_counterexample :
    linstorSuccess (2 ^ 61) = true ∧
      ((2 ^ 61 : Nat) &&& (2 ^ 63 ||| 2 ^ 62 ||| 2 ^ 61)) ≠ 0 := by
  constructor
  · decide
  · decide

/-- Claim C1 (amended): linstorSuccess returns true exactly when bits 63 and
62 of the return code are clear.  maskError covers bits 63 and 62, maskWarn
bit 63 and maskInfo bit 62, so their union is 0xC000000000000000: bit 61 is
never inspected, and a code with only bit 61 set is a success. -/
theorem claim_C1 :
    (∀ r : Nat, linstorSuccess r = (!(r.testBit 63) && !(r.testBit 62)))
    ∧ linstorSuccess (2 ^ 61) = true := by
  constructor
  · intro r
    have hm : maskError ||| maskWarn ||| maskInfo = 2 ^ 63 ||| 2 ^ 62 := by decide
    rw [linstorSuccess, hm, Nat.and_or_distrib_left, Nat.and_two_pow, Nat.and_two_pow]
    cases h63 : r.testBit 63 <;> cases h62 : r.testBit 62 <;> simp
  · decide

/-- Claim C3: doResExists propagates a decode failure as an error rather
than a false result; on a decodable snapshot it answers ok true exactly when
the name appears among the resource-definition records of the first decoded
element, and ok false with no error when no record matches, in particular on
an empty record list. -/
theorem claim_C3 (name : String) (j : Json) :
    (∀ e, unmarshalResList j = .error e → ∃ m, doResExists name j = .err m)
    ∧ (∀ first rest, unmarshalResList j = .ok (first :: rest) →
        ((doResExists name j = .ok true ↔ ∃ res ∈ first.Resources, res.Name = name)
          ∧ ((∀ res ∈ first.Resources, res.Name ≠ name) →
              doResExists name j = .ok false))) := by
  constructor
  · intro e he
    rw [doResExists, he]
    exact ⟨_, rfl⟩
  · intro first rest hd
    constructor
    · rw [doResExists, hd]
      simp [List.any_eq_true]
    · intro h
      have hany : first.Resources.any (fun r => r.Name == name) = false := by
        rw [List.any_eq_false]
        intro res hres hc
        exact h res hres (by simpa using hc)
      rw [doResExists, hd]
      simp [hany]

/-- Witness for claim C3: a concrete snapshot holding r0 on nodeA, queried
for a present name, an absent name, and fed an undecodable input. -/
theorem claim_C3_witness :
    doResExists "r0" jC3 = .ok true
    ∧ doResExists "zz" jC3 = .ok false
    ∧ ∃ m, doResExists "r0" (Json.jnum 5) = .err m := by
  refine ⟨?_, ?_, ?_⟩
  · exact ((claim_C3 "r0" jC3).2 ⟨[], [⟨[], "", "", "nodeA", [], "", "r0", []⟩]⟩ []
      (by decide)).1.mpr ⟨⟨[], "", "", "nodeA", [], "", "r0", []⟩, by decide, rfl⟩
  · exact ((claim_C3 "zz" jC3).2 ⟨[], [⟨[], "", "", "nodeA", [], "", "r0", []⟩]⟩ []
      (by decide)).2 (by decide)
  · exact (claim_C3 "r0" (Json.jnum 5)).1 "cannot unmarshal value into Go slice resList"
      (by decide)

/-- Claim C5: on input that decodes to an empty top-level array, each of
doResExists, doResOnNode, doIsClient and getDevPath indexes element 0 of the
empty decoded list without a guard, reaching the out-of-range panic branch
of the total embedding. -/
theorem claim_C5 (name node : String) (r : Resource) (j : Json) (lstatOK : String → Bool)
    (h : unmarshalResList j = .ok ([] : resList)) :
    doResExists name j = .panicked oobMsg
    ∧ doResOnNode [] name node = none
    ∧ r.doIsClient [] node = none
    ∧ getDevPath r j lstatOK = .panicked oobMsg := by
  refine ⟨?_, rfl, rfl, ?_⟩
  · rw [doResExists, h]
  · rw [getDevPath, h]

/-- Witness for claim C5 at the concrete input of an empty JSON array. -/
theorem claim_C5_witness :
    doResExists "r0" (Json.jarr []) = .panicked oobMsg
    ∧ doResOnNode [] "r0" "n1" = none
    ∧ r0.doIsClient [] "n1" = none
    ∧ getDevPath r0 (Json.jarr []) (fun _ => true) = .panicked oobMsg :=
  claim_C5 "r0" "n1" r0 (Json.jarr []) (fun _ => true) rfl

/-- Claim C10: doResOnNode answers true exactly when one and the same
resource-definition record of the first decoded element matches both the
resource name and the node name; when every record matching the name sits on
a different node the answer is false. -/
theorem claim_C10 (first : resEntry) (rest : resList) (resName nodeName : String) :
    (doResOnNode (first :: rest) resName nodeName = some true ↔
      ∃ res ∈ first.Resources, res.Name = resName ∧ res.NodeName = nodeName)
    ∧ ((∀ res ∈ first.Resources, res.Name = resName → res.NodeName ≠ nodeName) →
      doResOnNode (first :: rest) resName nodeName = some false) := by
  constructor
  · rw [doResOnNode]
    simp [List.any_eq_true]
  · intro h
    have hany : first.Resources.any
        (fun res => res.Name == resName && res.NodeName == nodeName) = false := by
      rw [List.any_eq_false]
      intro res hres hc
      simp only [Bool.and_eq_true, beq_iff_eq] at hc
      exact h res hres hc.1 hc.2
    rw [doResOnNode, hany]

/-- Witness for claim C10: the record r0 on n1 makes (r0, n1) true and the
name-only match (r0, n2) false. -/
theorem claim_C10_witness :
    doResOnNode [entryC10] "r0" "n1" = some true
    ∧ doResOnNode [entryC10] "r0" "n2" = some false := by
  constructor
  · exact (claim_C10 entryC10 [] "r0" "n1").1.mpr
      ⟨⟨[], "", "", "n1", [], "", "r0", []⟩, by decide, rfl, rfl⟩
  · exact (claim_C10 entryC10 [] "r0" "n2").2 (by decide)

/-- Claim C9: doIsClient answers the negation of HasDisk of the volume-0
entry of the record matching both resource name and node name (true for a
diskless client, false for a disk-backed replica), records preceding the
match deciding nothing; and answers false, not an error, when no record, or
no volume 0 of a matching record, fits the (name, node) pair. -/
theorem claim_C9 (r : Resource) (node : String) (first : resEntry) (rest : resList) :
    (∀ pre res post v, first.ResourceStates = pre ++ res :: post →
        (∀ q ∈ pre, (r.Name = q.RscName ∧ node = q.NodeName) → vol0 q.VlmStates = none) →
        r.Name = res.RscName → node = res.NodeName →
        vol0 res.VlmStates = some v →
        r.doIsClient (first :: rest) node = some (!v.HasDisk))
    ∧ ((∀ q ∈ first.ResourceStates, (r.Name = q.RscName ∧ node = q.NodeName) →
          vol0 q.VlmStates = none) →
        r.doIsClient (first :: rest) node = some false) := by
  constructor
  · intro pre res post v hsplit hpre h1 h2 hv
    show some (isClientScan r.Name node first.ResourceStates) = some (!v.HasDisk)
    rw [hsplit, isClientScan_of_found r.Name node pre res post v hpre h1 h2 hv]
  · intro h
    show some (isClientScan r.Name node first.ResourceStates) = some false
    rw [isClientScan_of_none r.Name node first.ResourceStates h]

/-- Witness for claim C9: volume 0 without a disk yields true, with a disk
yields false, and a record on a different node yields false. -/
theorem claim_C9_witness :
    r0.doIsClient [entryC9client] "n1" = some true
    ∧ r0.doIsClient [entryC9disk] "n1" = some false
    ∧ r0.doIsClient [entryC9miss] "n1" = some false := by
  refine ⟨?_, ?_, ?_⟩
  · exact (claim_C9 r0 "n1" entryC9client []).1 []
      ⟨false, "r0", false, [volInfo.zero], false, "n1"⟩ [] volInfo.zero rfl
      (by simp) rfl rfl (by decide)
  · exact (claim_C9 r0 "n1" entryC9disk []).1 []
      ⟨false, "r0", false, [volWithDisk], false, "n1"⟩ [] volWithDisk rfl
      (by simp) rfl rfl (by decide)
  · exact (claim_C9 r0 "n1" entryC9miss []).2 (by decide)

/-- Claim C6: Assign fails fast with the no-resource-definition error when
the existence check answers false, issuing no command; and when every node
of NodeList and ClientList is already present in the snapshot, Assign issues
zero create-resource commands and returns success. -/
theorem claim_C6 (r : Resource) (out : Json) (exec : List String → Option String) :
    (r.Exists out = .ok false →
      r.Assign out exec = (.err ("No resource definition for resource " ++ r.Name), []))
    ∧ (r.Exists out = .ok true →
      (∀ node ∈ r.NodeList ++ r.ClientList, r.OnNode out node = .ok true) →
      r.Assign out exec = (.ok (), [])) := by
  constructor
  · intro h
    rw [Resource.Assign, h]
  · intro h hall
    have h1 := assignNodes_allPresent r out exec false r.NodeList
      (fun n hn => hall n (by simp [hn]))
    have h2 := assignNodes_allPresent r out exec true r.ClientList
      (fun n hn => hall n (by simp [hn]))
    rw [Resource.Assign, h]
    simp [h1, h2]

/-- Witness for claim C6: with r0 already on n1 and n2 Assign issues nothing
and succeeds; without a definition record it fails fast. -/
theorem claim_C6_witness :
    rC6.Assign jC6 (fun _ => none) = (.ok (), [])
    ∧ r0.Assign (Json.jarr [Json.jobj []]) (fun _ => none) =
        (.err ("No resource definition for resource " ++ r0.Name), []) := by
  constructor
  · exact (claim_C6 rC6 jC6 (fun _ => none)).2 (by decide) (by decide)
  · exact (claim_C6 r0 (Json.jarr [Json.jobj []]) (fun _ => none)).1 (by decide)

/-- Claim C7: when no resource-state record of the decoded snapshot matches
the resource name, or every matching record lacks a volume numbered 0, the
scan of getDevPath keeps the zero-value volume record, synthesizes the path
of minor number 0, and returns ok with that path whenever the stat check
accepts it — it does not report that the resource was not found. -/
theorem claim_C7 (r : Resource) (out : Json) (lstatOK : String → Bool)
    (first : resEntry) (rest : resList)
    (hdec : unmarshalResList out = .ok (first :: rest))
    (hnone : ∀ res ∈ first.ResourceStates, r.Name = res.RscName →
        ∀ v ∈ res.VlmStates, ¬ v.VlmNr = 0)
    (hstat : lstatOK "/dev/drbd0" = true) :
    getDevPath r out lstatOK = .ok "/dev/drbd0" := by
  have hscan : scanVol r.Name first.ResourceStates = volInfo.zero := by
    rw [scanVol, scanVolFrom_eq]
    have hflat : (first.ResourceStates.filter (fun res => r.Name == res.RscName)).flatMap
        (fun res => res.VlmStates.filter (fun v => v.VlmNr == 0)) = [] := by
      rw [List.flatMap_eq_nil_iff]
      intro res hres
      rw [List.filter_eq_nil_iff]
      intro v hv
      have hmem := List.mem_filter.mp hres
      have hname : r.Name = res.RscName := by simpa using hmem.2
      simpa using hnone res hmem.1 hname v hv
    rw [hflat]
    rfl
  have hpath : doGetDevPath volInfo.zero = "/dev/drbd0" := by decide
  rw [getDevPath, hdec]
  simp [hscan, hpath, hstat]

/-- Witness for claim C7: a snapshot whose single state record belongs to a
different resource makes getDevPath of r0 fall back to /dev/drbd0. -/
theorem claim_C7_witness :
    getDevPath r0 jC7 (fun _ => true) = .ok "/dev/drbd0" :=
  claim_C7 r0 jC7 (fun _ => true)
    ⟨[⟨false, "other", false, [volWithMinor 4], false, "n1"⟩], []⟩ []
    (by decide) (by decide) rfl

/-- Claim C2: safeFormat checked case by case in the order of the source:
a probed type equal to the desired one returns success with no command; an
empty probed type leads to the mkfs command being issued with the desired
type; a non-empty probed type different from the desired one returns the
refusing-to-overwrite error and mkfs is never invoked. -/
theorem claim_C2 (f : FSUtil) (path blkidOut : String) (mkfsErr : Option String)
    (probed : String) (hprobe : doCheckFSType blkidOut = .ok probed) :
    (probed = f.FSType → f.safeFormat path blkidOut mkfsErr = ⟨none, none⟩)
    ∧ (probed = "" → probed ≠ f.FSType →
        (f.safeFormat path blkidOut mkfsErr).mkfsCmd = some ["mkfs", "-t", f.FSType, path])
    ∧ (probed ≠ "" → probed ≠ f.FSType →
        f.safeFormat path blkidOut mkfsErr =
          ⟨some ("device " ++ path ++ " already formatted with " ++ probed ++
                 " filesystem, refusing to overwrite with " ++ f.FSType ++ " filesystem"),
           none⟩) := by
  refine ⟨?_, ?_, ?_⟩
  · intro he
    rw [FSUtil.safeFormat.eq_def, hprobe]
    simp [he]
  · intro he hne
    have hb : (probed == f.FSType) = false := by simpa using hne
    have hb2 : (probed != "") = false := by simp [he]
    rw [FSUtil.safeFormat.eq_def, hprobe]
    simp only [hb, hb2, Bool.false_and, if_false]
    cases mkfsErr <;> rfl
  · intro hne he2
    have hb : (probed == f.FSType) = false := by simpa using he2
    have hb2 : (probed != "") = true := by simpa using hne
    have hb3 : (probed != f.FSType) = true := by simp [bne, hb]
    simp only [FSUtil.safeFormat.eq_def, hprobe]
    rw [if_neg (by simp [hb]), if_pos (by simp [hb2, hb3])]

/-- Witness for claim C2 with desired type ext4: a matching probe is a
no-op, an empty probe issues mkfs -t ext4, and an xfs probe is refused. -/
theorem claim_C2_witness :
    (FSUtil.mk r0 "ext4").safeFormat "/dev/drbd100" "ID_FS_TYPE=ext4" none = ⟨none, none⟩
    ∧ ((FSUtil.mk r0 "ext4").safeFormat "/dev/drbd100" "" none).mkfsCmd =
        some ["mkfs", "-t", "ext4", "/dev/drbd100"]
    ∧ (FSUtil.mk r0 "ext4").safeFormat "/dev/drbd100" "ID_FS_TYPE=xfs" none =
        ⟨some ("device " ++ "/dev/drbd100" ++ " already formatted with " ++ "xfs" ++
               " filesystem, refusing to overwrite with " ++ "ext4" ++ " filesystem"),
         none⟩ := by
  refine ⟨?_, ?_, ?_⟩
  · exact (claim_C2 (FSUtil.mk r0 "ext4") "/dev/drbd100" "ID_FS_TYPE=ext4" none "ext4"
      (by decide)).1 rfl
  · exact (claim_C2 (FSUtil.mk r0 "ext4") "/dev/drbd100" "" none ""
      (by decide)).2.1 rfl (by decide)
  · exact (claim_C2 (FSUtil.mk r0 "ext4") "/dev/drbd100" "ID_FS_TYPE=xfs" none "xfs"
      (by decide)).2.2 (by decide) (by decide)

/-- Claim C4, as stated, fails on the code: in a snapshot with two
resource-state records matching the name, the spec-worded scan (first
matching record, its volume 0, here minor 7, path /dev/drbd7) disagrees
with getDevPath, which returns /dev/drbd9 because the loop keeps
overwriting and the last matching record wins, even with every path
passing the stat check. -/
theorem claim_C4_counterexample :
    unmarshalResList jC4 = .ok [⟨statesC4, []⟩]
    ∧ specFirstMatchVol0 "r0" statesC4 = some (volWithMinor 7)
    ∧ doGetDevPath (volWithMinor 7) = "/dev/drbd7"
    ∧ getDevPath r0 jC4 (fun _ => true) = .ok "/dev/drbd9"
    ∧ ("/dev/drbd9" : String) ≠ "/dev/drbd7" := by
  refine ⟨by decide, by decide, by decide, by decide, by decide⟩

/-- Claim C4 (amended): each attempt takes the LAST volume-0 entry among the
resource-state records matching the name, later records overriding earlier
ones (falling back to the zero record when none matches), synthesizes
/dev/drbd followed by its minor number, and returns that path only after the
stat-like check accepts it; minor 7 gives /dev/drbd7 and minor 0 gives
/dev/drbd0. -/
theorem claim_C4 :
    (∀ name states, scanVol name states = (lastMatchVol0 name states).getD volInfo.zero)
    ∧ (∀ (r : Resource) (out : Json) (lstatOK : String → Bool) first rest,
        unmarshalResList out = .ok (first :: rest) →
        getDevPath r out lstatOK =
          (if lstatOK (doGetDevPath
              ((lastMatchVol0 r.Name first.ResourceStates).getD volInfo.zero))
           then .ok (doGetDevPath
              ((lastMatchVol0 r.Name first.ResourceStates).getD volInfo.zero))
           else .err ("Could not stat " ++ doGetDevPath
              ((lastMatchVol0 r.Name first.ResourceStates).getD volInfo.zero))))
    ∧ doGetDevPath (volWithMinor 7) = "/dev/drbd7"
    ∧ doGetDevPath (volWithMinor 0) = "/dev/drbd0" := by
  refine ⟨?_, ?_, by decide, by decide⟩
  · intro name states
    rw [scanVol, scanVolFrom_eq, lastMatchVol0]
  · intro r out lstatOK first rest hdec
    have hscan : scanVol r.Name first.ResourceStates =
        (lastMatchVol0 r.Name first.ResourceStates).getD volInfo.zero := by
      rw [scanVol, scanVolFrom_eq, lastMatchVol0]
    rw [getDevPath, hdec]
    simp only [hscan]

/-- Witness for claim C4 on the two-record snapshot: the scan keeps minor 9,
the last matching volume-0 entry. -/
theorem claim_C4_witness :
    getDevPath r0 jC4 (fun _ => true) =
      (if (fun _ => true) (doGetDevPath ((lastMatchVol0 r0.Name statesC4).getD volInfo.zero))
       then .ok (doGetDevPath ((lastMatchVol0 r0.Name statesC4).getD volInfo.zero))
       else .err ("Could not stat " ++
          doGetDevPath ((lastMatchVol0 r0.Name statesC4).getD volInfo.zero))) :=
  claim_C4.2.1 r0 jC4 (fun _ => true) ⟨statesC4, []⟩ [] (by decide)

/-- Claim C8: the probe parser returns the empty string with no error on
input with zero whitespace-separated tokens; on well-formed tokens it
returns the value keyed ID_FS_TYPE, as on the concrete ext4 example; any
token lacking an equals separator is a parse error; and non-empty
well-formed input without the ID_FS_TYPE key is an error. -/
theorem claim_C8 :
    (∀ s, goFields s = [] → doCheckFSType s = .ok "")
    ∧ doCheckFSType "" = .ok ""
    ∧ doCheckFSType "ID_FS_UUID=abc ID_FS_TYPE=ext4 ID_FS_USAGE=filesystem" = .ok "ext4"
    ∧ (∀ s v, goFields s ≠ [] →
        (∀ pair ∈ goFields s, 2 ≤ (goSplitEq pair).length) →
        (∃ pair ∈ goFields s, tokenKey pair = "ID_FS_TYPE") →
        (∀ pair ∈ goFields s, tokenKey pair = "ID_FS_TYPE" → tokenVal pair = v) →
        doCheckFSType s = .ok v)
    ∧ (∀ s pair, pair ∈ goFields s → (goSplitEq pair).length < 2 →
        ∃ m, doCheckFSType s = .error m)
    ∧ (∀ s, goFields s ≠ [] →
        (∀ pair ∈ goFields s, 2 ≤ (goSplitEq pair).length) →
        (∀ pair ∈ goFields s, tokenKey pair ≠ "ID_FS_TYPE") →
        ∃ m, doCheckFSType s = .error m) := by
  refine ⟨?_, by decide, by decide, ?_, ?_, ?_⟩
  · intro s h
    rw [doCheckFSType]
    simp [h]
  · intro s v hne hwf hex hval
    have hie : (goFields s).isEmpty = false := by
      simpa [List.isEmpty_iff] using hne
    have hparse := parseBlockAttrs_ok s (goFields s) hwf
    have hlook : mapLookup ((goFields s).map (fun pair => (tokenKey pair, tokenVal pair)))
        "ID_FS_TYPE" = some v := by
      rw [mapLookup]
      apply lookupFoldAcc_const
      · rcases hex with ⟨p, hp, hk⟩
        exact ⟨(tokenKey p, tokenVal p), List.mem_map_of_mem _ hp, hk⟩
      · intro kv hkv hk
        rcases List.mem_map.mp hkv with ⟨p, hp, rfl⟩
        exact hval p hp hk
    rw [doCheckFSType]
    simp [hie, hparse, hlook]
  · intro s pair hmem hlen
    have hne : goFields s ≠ [] := by
      intro hc
      rw [hc] at hmem
      simp at hmem
    have hie : (goFields s).isEmpty = false := by
      simpa [List.isEmpty_iff] using hne
    rcases parseBlockAttrs_err s (goFields s) pair hmem hlen with ⟨m, hm⟩
    refine ⟨m, ?_⟩
    rw [doCheckFSType]
    simp [hie, hm]
  · intro s hne hwf hnokey
    have hie : (goFields s).isEmpty = false := by
      simpa [List.isEmpty_iff] using hne
    have hparse := parseBlockAttrs_ok s (goFields s) hwf
    have hlook : mapLookup ((goFields s).map (fun pair => (tokenKey pair, tokenVal pair)))
        "ID_FS_TYPE" = none := by
      rw [mapLookup]
      apply lookupFoldAcc_none
      intro kv hkv
      rcases List.mem_map.mp hkv with ⟨p, hp, rfl⟩
      exact hnokey p hp
    refine ⟨"could not find ID_FS_TYPE in " ++ s, ?_⟩
    rw [doCheckFSType]
    simp [hie, hparse, hlook]

/-- Witness for claim C8: whitespace-only input is ok empty, a token with no
equals sign errors, well-formed tokens without ID_FS_TYPE error, and the
ext4 token is found. -/
theorem claim_C8_witness :
    doCheckFSType "   " = .ok ""
    ∧ (∃ m, doCheckFSType "garbage" = .error m)
    ∧ (∃ m, doCheckFSType "ID_FS_UUID=abc" = .error m)
    ∧ doCheckFSType "ID_FS_TYPE=ext4 ID_FS_USAGE=filesystem" = .ok "ext4" := by
  refine ⟨?_, ?_, ?_, ?_⟩
  · exact claim_C8.1 "   " (by decide)
  · exact claim_C8.2.2.2.2.1 "garbage" "garbage" (by decide) (by decide)
  · exact claim_C8.2.2.2.2.2 "ID_FS_UUID=abc" (by decide) (by decide) (by decide)
  · exact claim_C8.2.2.2.1 "ID_FS_TYPE=ext4 ID_FS_USAGE=filesystem" "ext4" (by decide)
      (by decide) ⟨"ID_FS_TYPE=ext4", by decide, by decide⟩ (by decide)
